import Mathlib

/-
Shallow embedding of the Playlist Queue Engine of src/src/controller.js
(papodaca/youtube-player).  JavaScript arrays become Lean lists, the
nullable number `currentVideoIndex` becomes `Option Int` (JS `findIndex`
can store -1 in it), nullable objects become `Option`, and the JS `Date`
stored in `addedAt` is abstracted as a `Nat` timestamp.  DOM / player /
twitch-chat side effects are out of scope; `playNext` additionally returns
the command it would issue to the playback component so that "no load
command is issued" is statable.
-/

namespace YoutubePlayer

/-- One enqueued video, with exactly the fields built in `addToQueue`
(controller.js lines 167-175 and 187-195). -/
structure QueueItem where
  videoId : String
  title : String
  channel : String
  thumbnail : String
  username : Option String
  startTime : Option Nat
  addedAt : Nat
deriving DecidableEq, Repr

/-- The engine-relevant mutable fields of the controller (controller.js
`connect`, lines 18-29).  `preservePlaylist = true` is Preserve mode,
`false` is Consume mode.  Volume/mute mirror fields are omitted: no claim
mentions them. -/
structure EngineState where
  queue : List QueueItem
  currentVideo : Option QueueItem
  currentVideoIndex : Option Int
  autoplay : Bool
  preservePlaylist : Bool
deriving DecidableEq, Repr

/-- The initial field values set in `connect` (controller.js lines 19-26)
before `loadState` runs, using the Stimulus value defaults of lines 12-16:
`autoplay` defaults to `false`, `preservePlaylist` defaults to `true`. -/
def defaultInitState : EngineState :=
  { queue := []
    currentVideo := none
    currentVideoIndex := none
    autoplay := false
    preservePlaylist := true }

/-- JS remainder `a % n` (sign of the dividend) for `n > 0`. -/
def jsMod (a n : Int) : Int :=
  if 0 ≤ a then a % n else -((-a) % n)

/-- JS array read `l[i]`: `undefined` (here `none`) when out of range or
negative. -/
def jsGet (l : List α) (i : Int) : Option α :=
  if i < 0 then none else l.get? i.toNat

/-- The command `playNext` issues to the YouTube player (controller.js
lines 290-298). -/
inductive LoadCmd where
  | loadAndPlay (videoId : String) (start : Nat)
  | cueOnly (videoId : String) (start : Nat)
deriving DecidableEq, Repr

/-- `playNext(manual)` (controller.js lines 264-299).  Returns the new
state together with the command sent to the playback component (`none`
when the early empty-queue return fires).  In the non-empty case the code
reads `this.currentVideo.videoId`, so the command is built from the new
`currentVideo`; a `none` `currentVideo` there would throw in JS and is
modelled as issuing no command (unreachable from the states the claims
use). -/
def playNext (st : EngineState) (manual : Bool) : EngineState × Option LoadCmd :=
  if st.queue.length = 0 then
    ({ st with currentVideo := none, currentVideoIndex := none }, none)
  else
    let st2 : EngineState :=
      if st.preservePlaylist then
        -- preserve playlist mode - move to next item without removing it
        let idx : Int :=
          match st.currentVideoIndex with
          | some i => jsMod (i + 1) st.queue.length
          | none => 0
        { st with currentVideoIndex := some idx, currentVideo := jsGet st.queue idx }
      else
        -- normal mode - remove current video from the front of the queue
        { st with currentVideo := st.queue.head?, queue := st.queue.tail,
                  currentVideoIndex := none }
    let cmd : Option LoadCmd :=
      match st2.currentVideo with
      | some v =>
        if manual || st.autoplay then
          some (.loadAndPlay v.videoId (v.startTime.getD 0))
        else
          some (.cueOnly v.videoId (v.startTime.getD 0))
      | none => none
    (st2, cmd)

/-- Result of the metadata lookup `fetchVideoInfo` awaited inside
`addToQueue`: either the resolved display metadata or a rejection. -/
inductive LookupResult where
  | ok (title channel thumbnail : String)
  | failed
deriving DecidableEq, Repr

/-- `addToQueue(videoId, username, startTime)` (controller.js lines
159-198), with the awaited lookup outcome passed explicitly and `new
Date()` passed as `now`.  The duplicate check inspects only `queue`.  On
lookup success the item is appended and, when no video is current, the
first item is auto-loaded via `playNext(false)`; on lookup failure a
placeholder item is appended and nothing else happens. -/
def addToQueue (st : EngineState) (videoId : String) (username : Option String)
    (startTime : Option Nat) (lookup : LookupResult) (now : Nat) : EngineState :=
  if st.queue.any (fun item => item.videoId == videoId) then
    st
  else
    match lookup with
    | .ok title channel thumbnail =>
      let queueItem : QueueItem :=
        { videoId := videoId, title := title, channel := channel,
          thumbnail := thumbnail, username := username,
          startTime := startTime, addedAt := now }
      let st2 := { st with queue := st.queue ++ [queueItem] }
      if st2.currentVideo.isNone then (playNext st2 false).1 else st2
    | .failed =>
      { st with queue := st.queue ++ [{
          videoId := videoId,
          title := "Video " ++ videoId,
          channel := "Unknown",
          thumbnail := "https://img.youtube.com/vi/" ++ videoId ++ "/mqdefault.jpg",
          username := username,
          startTime := startTime,
          addedAt := now }] }

/-- JS `array.splice(start, 1)` for an integer `start` (negative values
count from the end, out-of-range removes nothing), as used by
`removeFromQueue`. -/
def jsSpliceRemove1 (l : List α) (start : Int) : List α :=
  let s : Int := if start < 0 then max (l.length + start) 0 else start
  l.eraseIdx s.toNat

/-- `removeFromQueue` (controller.js lines 503-508): `parseInt` of the
clicked row's index, then `this.queue.splice(index, 1)`.  No range check,
no error signalling, and `currentVideo`/`currentVideoIndex` are not
touched. -/
def removeFromQueue (st : EngineState) (index : Int) : EngineState :=
  { st with queue := jsSpliceRemove1 st.queue index }

/-- JS `array.splice(start, 0, a)` for `start ≥ 0` (`List.take`/`drop`
already clamp exactly like JS does). -/
def jsSpliceInsert (l : List α) (start : Nat) (a : α) : List α :=
  l.take start ++ a :: l.drop start

/-- `drop(event)` (controller.js lines 829-865) reduced to its queue
effect: `draggedIndex` and `dropIndex` are the two row indices.  When they
differ, the dragged item is removed and reinserted (two splices), and in
preserve mode a non-null `currentVideoIndex` is rebased.  When
`draggedIndex` is out of range, JS would read `undefined` and splice that
hole into the array; a `List QueueItem` cannot hold it, so that branch is
left as the identity (no claim depends on it). -/
def drop (st : EngineState) (draggedIndex dropIndex : Nat) : EngineState :=
  if draggedIndex = dropIndex then st
  else
    match st.queue.get? draggedIndex with
    | none => st
    | some draggedItem =>
      let q := jsSpliceInsert (st.queue.eraseIdx draggedIndex) dropIndex draggedItem
      let newIdx : Option Int :=
        if st.preservePlaylist then
          match st.currentVideoIndex with
          | none => none
          | some cur =>
            if (draggedIndex : Int) = cur then some (dropIndex : Int)
            else if (draggedIndex : Int) < cur ∧ (dropIndex : Int) ≥ cur then some (cur - 1)
            else if (draggedIndex : Int) > cur ∧ (dropIndex : Int) ≤ cur then some (cur + 1)
            else some cur
        else st.currentVideoIndex
      { st with queue := q, currentVideoIndex := newIdx }

/-- JS `queue.findIndex(item => item.videoId === v)`: first matching
index, or -1 when none matches. -/
def jsFindIndex (l : List QueueItem) (v : String) : Int :=
  match l.findIdx? (fun item => item.videoId == v) with
  | some i => i
  | none => -1

/-- `togglePreservePlaylist` (controller.js lines 465-477) with the
checkbox value passed in: switching to preserve mode with a current video
stores the `findIndex` result (possibly -1); every other case stores
null. -/
def togglePreservePlaylist (st : EngineState) (checked : Bool) : EngineState :=
  let st2 := { st with preservePlaylist := checked }
  match checked, st.currentVideo with
  | true, some cv =>
    { st2 with currentVideoIndex := some (jsFindIndex st.queue cv.videoId) }
  | _, _ => { st2 with currentVideoIndex := none }

/-- The engine-relevant fields of the JSON record written by `saveState`
(controller.js lines 886-899).  Each field is wrapped in `Option` so that
records from older schemas (missing keys) and hand-edited records are
representable: `none` stands for an absent / null / wrongly-typed value,
which is exactly what the corresponding `loadState` guard tests.
`channelName`/`volume`/`isMuted`/`previousVolume` are also stored by the
code but are outside the engine state. -/
structure SavedState where
  queue : Option (List QueueItem)
  currentVideo : Option QueueItem
  currentVideoIndex : Option Int
  autoplay : Option Bool
  preservePlaylist : Option Bool
deriving DecidableEq, Repr

/-- `saveState` restricted to the engine fields: a direct structural dump
(controller.js lines 886-899). -/
def saveState (st : EngineState) : SavedState :=
  { queue := some st.queue
    currentVideo := st.currentVideo
    currentVideoIndex := st.currentVideoIndex
    autoplay := some st.autoplay
    preservePlaylist := some st.preservePlaylist }

/-- What `localStorage.getItem` + `JSON.parse` can produce in `loadState`:
no record at all, a record that throws in `JSON.parse`, or a parsed
record. -/
inductive StoredRecord where
  | absent
  | corrupt
  | parsed (s : SavedState)
deriving DecidableEq, Repr

/-- `loadState` (controller.js lines 901-959) restricted to the engine
fields, starting from the field values `st0` that `connect` set just
before calling it.  An absent record leaves the state alone; a corrupt
record throws inside the `try` before any field is touched, and the
`catch` only logs, so it also leaves the state alone.  For a parsed
record: `queue` is restored when present (and an array), `currentVideo`
together with `currentVideoIndex` only when `currentVideo` is truthy, and
the two booleans only when they are actually booleans. -/
def loadState (st0 : EngineState) (record : StoredRecord) : EngineState :=
  match record with
  | .absent => st0
  | .corrupt => st0
  | .parsed s =>
    let st1 := match s.queue with
      | some q => { st0 with queue := q }
      | none => st0
    let st2 := match s.currentVideo with
      | some cv => { st1 with currentVideo := some cv,
                              currentVideoIndex := s.currentVideoIndex }
      | none => st1
    let st3 := match s.autoplay with
      | some b => { st2 with autoplay := b }
      | none => st2
    match s.preservePlaylist with
      | some b => { st3 with preservePlaylist := b }
      | none => st3

/-- A valid `PlaylistState` in the sense of the spec's data model:
`currentIndex` is null outside preserve mode and, in preserve mode with a
current video, it is a non-null in-range index pointing at the current
video (invariants I2/I3); a non-null index never coexists with a null
current video. -/
def ValidState (s : EngineState) : Prop :=
  match s.currentVideoIndex, s.currentVideo with
  | none, none => True
  | none, some _ => s.preservePlaylist = false
  | some _, none => False
  | some i, some cv => s.preservePlaylist = true ∧ jsGet s.queue i = some cv

/-
Link Extractor (controller.js lines 739-776).  The regular expressions are
hand-compiled to structurally-recursive char-list functions with the same
backtracking behaviour (greedy quantifiers prefer the rightmost viable
split, alternatives are tried in source order, the overall search is for
the leftmost matching position).
-/

/-- Character class of the id capture group: anything but a double quote,
an ampersand, a question mark, a slash, or whitespace (JS \s, here
approximated by `Char.isWhitespace`; the claims only use ASCII inputs). -/
def isIdChar (c : Char) : Bool :=
  !(c == '"' || c == '&' || c == '?' || c == '/' || c.isWhitespace)

/-- The capture group of `extractVideoId`: exactly 11 id characters at the
front of `l` (whatever follows is irrelevant). -/
def takeId (l : List Char) : Option (List Char) :=
  let pre := l.take 11
  if pre.length = 11 && pre.all isIdChar then some pre else none

/-- Strip a literal character sequence from the front of `l`. -/
def stripPre : List Char → List Char → Option (List Char)
  | [], l => some l
  | _ :: _, [] => none
  | p :: ps, c :: cs => if c == p then stripPre ps cs else none

/-- Backtracking scan for the channel-style alternative
`[^\/]+\/.+\/` followed by the id: after the first slash, the greedy `.+`
picks the rightmost later slash (preceded by at least one character, none
of them a newline since `.` does not match newlines) whose suffix starts
with 11 id characters.  `n` counts the characters consumed by `.+` so
far; `best` is the rightmost success seen. -/
def scanChan : List Char → Nat → Option (List Char) → Option (List Char)
  | [], _, best => best
  | c :: rest, n, best =>
    if c == '\n' then best
    else
      let best2 :=
        if c == '/' && decide (1 ≤ n) then
          match takeId rest with
          | some id => some id
          | none => best
        else best
      scanChan rest (n + 1) best2

/-- The alternative `[^\/]+\/.+\/` followed by the id capture.  The greedy
`[^\/]+` necessarily matches everything up to the first slash. -/
def altChannel (r : List Char) : Option (List Char) :=
  match r.span (fun c => !(c == '/')) with
  | (p, rest) =>
    if p.isEmpty then none
    else
      match rest with
      | '/' :: q => scanChan q 0 none
      | _ => none

/-- The alternative `(?:v|e(?:mbed)?)\/` followed by the id capture; `v`
is tried first, then `embed/` (greedy optional group), then `e/`. -/
def altPlayer (r : List Char) : Option (List Char) :=
  match stripPre ['v', '/'] r with
  | some rest => takeId rest
  | none =>
    match stripPre ['e', 'm', 'b', 'e', 'd', '/'] r with
    | some rest => takeId rest
    | none =>
      match stripPre ['e', '/'] r with
      | some rest => takeId rest
      | none => none

/-- Backtracking scan for the alternative `.*[?&]v=` followed by the id:
the greedy `.*` picks the rightmost `?v=` or `&v=` whose suffix starts
with 11 id characters; `.*` cannot cross a newline. -/
def scanV : List Char → Option (List Char) → Option (List Char)
  | [], best => best
  | c :: rest, best =>
    if c == '\n' then best
    else
      let best2 :=
        if c == '?' || c == '&' then
          match rest with
          | 'v' :: '=' :: tl =>
            match takeId tl with
            | some id => some id
            | none => best
          | _ => best
        else best
      scanV rest best2

/-- The alternative `shorts\/` followed by the id capture. -/
def altShorts (r : List Char) : Option (List Char) :=
  match stripPre ['s', 'h', 'o', 'r', 't', 's', '/'] r with
  | some rest => takeId rest
  | none => none

/-- One attempt of the `extractVideoId` regular expression at the current
position: either `youtube.com/` followed by one of its four path
alternatives (in source order), or `youtu.be/`, each followed by the
11-character id capture. -/
def matchIdAt (l : List Char) : Option (List Char) :=
  match stripPre ['y', 'o', 'u', 't', 'u', 'b', 'e', '.', 'c', 'o', 'm', '/'] l with
  | some r =>
    match altChannel r with
    | some id => some id
    | none =>
      match altPlayer r with
      | some id => some id
      | none =>
        match scanV r none with
        | some id => some id
        | none => altShorts r
  | none =>
    match stripPre ['y', 'o', 'u', 't', 'u', '.', 'b', 'e', '/'] l with
    | some r => takeId r
    | none => none

/-- Unanchored search: the leftmost position where `matchIdAt`
succeeds. -/
def searchId : List Char → Option (List Char)
  | [] => none
  | c :: rest =>
    match matchIdAt (c :: rest) with
    | some id => some id
    | none => searchId rest

/-- `extractVideoId` (controller.js lines 739-745): the capture of the
video-id regular expression, or null when it does not match. -/
def extractVideoId (url : String) : Option String :=
  (searchId url.data).map fun l => String.mk l

/-- Decimal value of a digit run, as `parseInt` computes it. -/
def digitsVal (l : List Char) : Nat :=
  l.foldl (fun acc c => acc * 10 + (c.toNat - 48)) 0

/-- The timestamp grammar of `extractStartTime` (controller.js lines
754-775) applied to the value of the `t` parameter: in source order,
`^(\d+)$`, `^(\d+)m(\d+)s?$`, `^(\d+)m$`, `^(\d+)s$`, else null.  Each
anchored regex is decomposed via the maximal leading digit run
(`takeWhile`/`dropWhile`), which is what the greedy `\d+` groups match. -/
def parseT (l : List Char) : Option Nat :=
  if (l.takeWhile Char.isDigit).isEmpty then none
  else
    match l.dropWhile Char.isDigit with
    | [] => some (digitsVal (l.takeWhile Char.isDigit))
    | c :: r2 =>
      if c = 'm' then
        if (r2.takeWhile Char.isDigit).isEmpty then
          match r2 with
          | [] => some (digitsVal (l.takeWhile Char.isDigit) * 60)
          | _ => none
        else
          match r2.dropWhile Char.isDigit with
          | [] => some (digitsVal (l.takeWhile Char.isDigit) * 60 +
                        digitsVal (r2.takeWhile Char.isDigit))
          | c2 :: r3 =>
            if c2 = 's' ∧ r3 = [] then
              some (digitsVal (l.takeWhile Char.isDigit) * 60 +
                    digitsVal (r2.takeWhile Char.isDigit))
            else none
      else if c = 's' ∧ r2 = [] then
        some (digitsVal (l.takeWhile Char.isDigit))
      else none

/-- The query string of a URL as `new URL(url, base)` sees it: the part
after the first question mark that precedes any `#` fragment marker. -/
def getQuery (url : List Char) : List Char :=
  let beforeFrag := url.takeWhile (fun c => !(c == '#'))
  match beforeFrag.dropWhile (fun c => !(c == '?')) with
  | [] => []
  | _ :: rest => rest

/-- Split a query string on ampersands (keeping empty components, as
`URLSearchParams` parsing does before discarding them). -/
def splitAmp (l : List Char) : List (List Char) :=
  l.foldr
    (fun c acc =>
      if c == '&' then [] :: acc
      else
        match acc with
        | [] => [[c]]
        | g :: gs => (c :: g) :: gs)
    [[]]

/-- `urlObj.searchParams.get('t')`: the value of the first `t` component
(`none` models null).  Percent-decoding is not modelled; no claim input
uses escapes. -/
def getTParam (url : List Char) : Option (List Char) :=
  (splitAmp (getQuery url)).findSome? fun p =>
    if p.isEmpty then none
    else
      let k := p.takeWhile (fun c => !(c == '='))
      if k = ['t'] then some ((p.dropWhile (fun c => !(c == '='))).drop 1)
      else none

/-- `extractStartTime` (controller.js lines 747-776).  `if (!tParam)
return null` also fires on the empty string (falsy in JS). -/
def extractStartTime (url : String) : Option Nat :=
  match getTParam url.data with
  | none => none
  | some [] => none
  | some t => parseT t

/-
Concrete states and items used by witnesses and counterexamples.
-/

/-- A sample queue item with id "A". -/
def exItemA : QueueItem :=
  { videoId := "A", title := "ta", channel := "ca", thumbnail := "tha",
    username := none, startTime := none, addedAt := 0 }

/-- A sample queue item with id "B". -/
def exItemB : QueueItem :=
  { videoId := "B", title := "tb", channel := "cb", thumbnail := "thb",
    username := some "user", startTime := some 7, addedAt := 1 }

/-- A sample queue item with id "C". -/
def exItemC : QueueItem :=
  { videoId := "C", title := "tc", channel := "cc", thumbnail := "thc",
    username := none, startTime := none, addedAt := 2 }

/-- A sample queue item with id "D". -/
def exItemD : QueueItem :=
  { videoId := "D", title := "td", channel := "cd", thumbnail := "thd",
    username := none, startTime := none, addedAt := 3 }

/-- A valid preserve-mode state: one-item queue whose item is current at
index 0. -/
def exValidState : EngineState :=
  { queue := [exItemA], currentVideo := some exItemA,
    currentVideoIndex := some 0, autoplay := true, preservePlaylist := true }

/-- An older-schema saved record: queue and current video present, but no
`currentVideoIndex`, `autoplay`, or `preservePlaylist` keys. -/
def exOldSchema : SavedState :=
  { queue := some [exItemA], currentVideo := some exItemA,
    currentVideoIndex := none, autoplay := none, preservePlaylist := none }

/-
Theorems for the claims, in claim order.
-/

/-- Claim C1: persistence round trip.  For every valid `PlaylistState`
(per the spec data model: `currentIndex` is null outside preserve mode and
a non-null index points at the non-null current video), deserializing the
record written by `saveState` reproduces `queue`, `currentVideo`,
`currentVideoIndex`, the mode flag `preservePlaylist`, and `autoplay`
exactly. -/
theorem persistence_round_trip (s : EngineState) (h : ValidState s) :
    loadState defaultInitState (StoredRecord.parsed (saveState s)) = s := by
  rcases s with ⟨q, cv, idx, ap, pp⟩
  rcases cv with _ | cv
  · rcases idx with _ | i
    · rfl
    · exact absurd h (by simp [ValidState])
  · rfl

/-- Concrete instantiation of `persistence_round_trip`: a one-item
preserve-mode state with the current video at index 0 survives the
round trip. -/
theorem persistence_round_trip_witness :
    ValidState exValidState ∧
    loadState defaultInitState (StoredRecord.parsed (saveState exValidState)) =
      exValidState :=
  ⟨⟨rfl, rfl⟩, persistence_round_trip exValidState ⟨rfl, rfl⟩⟩

/-- Claim C7 counterexample: the claim says a missing record deserializes
to Consume mode, but the declared Stimulus default for `preservePlaylist`
is `true` (controller.js line 15), so an absent record leaves the engine
in Preserve mode. -/
theorem deserialize_default_mode_counterexample :
    ¬ (loadState defaultInitState StoredRecord.absent).preservePlaylist = false := by
  decide

/-- Claim C7 (amended): deserializing an absent, corrupt, or all-missing
record yields the defaults empty queue, null `currentVideo` and
`currentVideoIndex`, `autoplay = false`, and Preserve mode
(`preservePlaylist = true`, the declared default); the parse failure of a
corrupt record is absorbed (the state of the caller is simply left at its
defaults).  For an older-schema record, a missing `preservePlaylist` key
leaves the mode at its pre-load value and a missing `currentVideoIndex`
alongside a present `currentVideo` restores a null index. -/
theorem deserialize_defaults :
    loadState defaultInitState StoredRecord.absent = defaultInitState ∧
    loadState defaultInitState StoredRecord.corrupt = defaultInitState ∧
    loadState defaultInitState (StoredRecord.parsed ⟨none, none, none, none, none⟩) =
      defaultInitState ∧
    defaultInitState.queue = [] ∧
    defaultInitState.currentVideo = none ∧
    defaultInitState.currentVideoIndex = none ∧
    defaultInitState.autoplay = false ∧
    defaultInitState.preservePlaylist = true ∧
    (∀ (st0 : EngineState) (s : SavedState), s.preservePlaylist = none →
       (loadState st0 (StoredRecord.parsed s)).preservePlaylist = st0.preservePlaylist) ∧
    (∀ (st0 : EngineState) (s : SavedState) (cv : QueueItem),
       s.currentVideo = some cv → s.currentVideoIndex = none →
       (loadState st0 (StoredRecord.parsed s)).currentVideoIndex = none) := by
  refine ⟨rfl, rfl, rfl, rfl, rfl, rfl, rfl, rfl, ?_, ?_⟩
  · intro st0 s hpp
    rcases s with ⟨sq, scv, sidx, sap, spp⟩
    cases hpp
    simp only [loadState]
    rcases sq with _ | q <;> rcases scv with _ | cv <;> rcases sap with _ | b <;> rfl
  · intro st0 s cv hcv hidx
    rcases s with ⟨sq, scv, sidx, sap, spp⟩
    cases hcv
    cases hidx
    simp only [loadState]
    rcases sq with _ | q <;> rcases sap with _ | b <;> rcases spp with _ | b2 <;> rfl

/-- Concrete instantiation of the hypothesis-bearing parts of
`deserialize_defaults`: an older-schema record with a queue and a current
video but no `preservePlaylist` and no `currentVideoIndex` key restores
the default Preserve mode and a null index. -/
theorem deserialize_defaults_witness :
    (loadState defaultInitState (StoredRecord.parsed exOldSchema)).preservePlaylist =
      defaultInitState.preservePlaylist ∧
    (loadState defaultInitState (StoredRecord.parsed exOldSchema)).currentVideoIndex =
      none :=
  ⟨deserialize_defaults.2.2.2.2.2.2.2.2.1 defaultInitState exOldSchema rfl,
   deserialize_defaults.2.2.2.2.2.2.2.2.2 defaultInitState exOldSchema exItemA rfl rfl⟩

/-- One `addToQueue` invocation with its awaited lookup outcome. -/
structure EnqueueCall where
  videoId : String
  username : Option String
  startTime : Option Nat
  lookup : LookupResult
  addedAt : Nat
deriving DecidableEq, Repr

/-- Run a sequence of `addToQueue` calls in order. -/
def runEnqueues (st : EngineState) (calls : List EnqueueCall) : EngineState :=
  calls.foldl
    (fun s c => addToQueue s c.videoId c.username c.startTime c.lookup c.addedAt) st

/-- No two queue entries share a `videoId`. -/
def DistinctIds (q : List QueueItem) : Prop :=
  q.Pairwise (fun a b => a.videoId ≠ b.videoId)

theorem playNext_queue_cases (st : EngineState) (manual : Bool) :
    (playNext st manual).1.queue = st.queue ∨
    (playNext st manual).1.queue = st.queue.tail := by
  unfold playNext
  split
  · exact Or.inl rfl
  · split
    · exact Or.inl rfl
    · exact Or.inr rfl

theorem distinctIds_tail {q : List QueueItem} (h : DistinctIds q) :
    DistinctIds q.tail := by
  cases q with
  | nil => exact h
  | cons a l => exact h.of_cons

theorem playNext_preserves_distinct (st : EngineState) (manual : Bool)
    (h : DistinctIds st.queue) : DistinctIds (playNext st manual).1.queue := by
  rcases playNext_queue_cases st manual with hq | hq
  · rw [hq]; exact h
  · rw [hq]; exact distinctIds_tail h

theorem addToQueue_preserves_distinct (st : EngineState) (v : String)
    (u : Option String) (s : Option Nat) (lk : LookupResult) (now : Nat)
    (h : DistinctIds st.queue) :
    DistinctIds (addToQueue st v u s lk now).queue := by
  unfold addToQueue
  split
  · exact h
  · rename_i hdup
    have hnot : ∀ it ∈ st.queue, it.videoId ≠ v := by
      intro it hit heq
      exact hdup (List.any_eq_true.mpr ⟨it, hit, by simp [heq]⟩)
    have happ : ∀ (item : QueueItem), item.videoId = v →
        DistinctIds (st.queue ++ [item]) := by
      intro item hid
      refine List.pairwise_append.mpr ⟨h, List.pairwise_singleton _ _, ?_⟩
      intro a ha b hb
      rcases List.mem_singleton.mp hb with rfl
      rw [hid]
      exact hnot a ha
    split
    · rename_i title channel thumbnail
      dsimp only
      split
      · exact playNext_preserves_distinct _ false (happ _ rfl)
      · exact happ _ rfl
    · exact happ _ rfl

/-- Claim C2: dedup invariant.  Starting from any state with an empty
queue, no sequence of `addToQueue` calls ever produces two queue entries
with the same `videoId`; and enqueueing an id already present in the
queue is a no-op that leaves the whole state (queue and `currentVideo`
included) unchanged. -/
theorem enqueue_dedup :
    (∀ (st0 : EngineState) (calls : List EnqueueCall), st0.queue = [] →
       DistinctIds (runEnqueues st0 calls).queue) ∧
    (∀ (st : EngineState) (v : String) (u : Option String) (s : Option Nat)
       (lk : LookupResult) (now : Nat),
       (∃ item ∈ st.queue, item.videoId = v) →
       addToQueue st v u s lk now = st) := by
  constructor
  · have run : ∀ (calls : List EnqueueCall) (st : EngineState),
        DistinctIds st.queue → DistinctIds (runEnqueues st calls).queue := by
      intro calls
      induction calls with
      | nil => intro st h; exact h
      | cons c cs ih =>
        intro st h
        exact ih _ (addToQueue_preserves_distinct st c.videoId c.username
          c.startTime c.lookup c.addedAt h)
    intro st0 calls h0
    exact run calls st0 (by rw [h0]; exact List.Pairwise.nil)
  · intro st v u s lk now hmem
    unfold addToQueue
    rw [if_pos]
    rcases hmem with ⟨item, hit, heq⟩
    exact List.any_eq_true.mpr ⟨item, hit, by simp [heq]⟩

/-- Concrete instantiation of `enqueue_dedup`: enqueueing "A" twice from
the empty default state keeps the ids distinct, and enqueueing "A" into a
queue already holding it changes nothing. -/
theorem enqueue_dedup_witness :
    DistinctIds (runEnqueues defaultInitState
      [⟨"A", none, none, .failed, 0⟩, ⟨"A", none, none, .failed, 1⟩]).queue ∧
    addToQueue { defaultInitState with queue := [exItemA] } "A" none none
        .failed 9 =
      { defaultInitState with queue := [exItemA] } :=
  ⟨enqueue_dedup.1 defaultInitState _ rfl,
   enqueue_dedup.2 { defaultInitState with queue := [exItemA] } "A" none none
     .failed 9 ⟨exItemA, by simp, rfl⟩⟩

/-- Claim C3: `playNext` postcondition by mode.  On an empty queue both
`currentVideo` and `currentVideoIndex` become null and no load command is
issued; in Consume mode on a non-empty queue the head is popped into
`currentVideo` and the index is null; in Preserve mode on a non-empty
queue the index becomes `(i + 1) mod len` when it was `some i` (with
`i ≥ 0`, the valid-state case) and `0` when it was null, the queue is
untouched, and `currentVideo` is the queue entry at the new index. -/
theorem playNext_advance (st : EngineState) (manual : Bool) :
    (st.queue = [] →
       playNext st manual =
         ({ st with currentVideo := none, currentVideoIndex := none }, none)) ∧
    (st.preservePlaylist = false → ∀ h tl, st.queue = h :: tl →
       (playNext st manual).1.currentVideo = some h ∧
       (playNext st manual).1.queue = tl ∧
       (playNext st manual).1.currentVideoIndex = none) ∧
    (st.preservePlaylist = true → st.queue ≠ [] →
       (∀ i : Int, st.currentVideoIndex = some i → 0 ≤ i →
          (playNext st manual).1.currentVideoIndex =
            some ((i + 1) % (st.queue.length : Int))) ∧
       (st.currentVideoIndex = none →
          (playNext st manual).1.currentVideoIndex = some 0) ∧
       (playNext st manual).1.queue = st.queue ∧
       (∀ j : Int, (playNext st manual).1.currentVideoIndex = some j →
          (playNext st manual).1.currentVideo = jsGet st.queue j)) := by
  refine ⟨?_, ?_, ?_⟩
  · intro hq
    unfold playNext
    rw [if_pos (by rw [hq]; rfl)]
  · intro hpp h tl hq
    unfold playNext
    rw [if_neg (by rw [hq]; simp)]
    dsimp only
    rw [if_neg (by simp [hpp])]
    exact ⟨by simp [hq], by simp [hq], rfl⟩
  · intro hpp hq
    have hlen : ¬ st.queue.length = 0 := fun h0 => hq (List.length_eq_zero.mp h0)
    unfold playNext
    rw [if_neg hlen]
    dsimp only
    rw [if_pos hpp]
    refine ⟨?_, ?_, rfl, ?_⟩
    · intro i hi hge
      rw [hi]
      dsimp only
      rw [jsMod, if_pos (by omega)]
    · intro hi
      rw [hi]
    · intro j hj
      dsimp only at hj ⊢
      rw [← Option.some_inj.mp hj]

/-- A 3-item preserve-mode queue with the cursor on the last item. -/
def exWrapState : EngineState :=
  { queue := [exItemA, exItemB, exItemC], currentVideo := some exItemC,
    currentVideoIndex := some 2, autoplay := false, preservePlaylist := true }

/-- The claim C4 example state: queue `[A,B,C,D]`, current item C at
index 2, Preserve mode. -/
def exReorderState : EngineState :=
  { queue := [exItemA, exItemB, exItemC, exItemD], currentVideo := some exItemC,
    currentVideoIndex := some 2, autoplay := false, preservePlaylist := true }

/-- Concrete instantiation of `playNext_advance`: the claim's wrap-around
case — a 3-item queue in Preserve mode with `currentVideoIndex = 2`
advances to index 0. -/
theorem playNext_advance_witness :
    (playNext exWrapState true).1.currentVideoIndex = some 0 := by
  have h := ((playNext_advance exWrapState true).2.2 rfl (by decide)).1 2 rfl
    (by decide)
  rw [h]
  decide

/-- Claim C4: reorder (`drop`) semantics and index rebasing.  With the
dragged index in range (its entry is `item`) and the drop index in range:
equal indices are a no-op; otherwise the item is removed and reinserted
at the drop index of the shifted list, and in Preserve mode a non-null
`currentVideoIndex` is rebased on the pre-move indices: to `dropIndex`
when the dragged item was current, down by one when a strictly earlier
item jumped to or past it, up by one when a strictly later item jumped to
or before it, and unchanged otherwise. -/
theorem drop_reorder (st : EngineState) (f t : Nat) (item : QueueItem)
    (hf : st.queue.get? f = some item) (ht : t < st.queue.length) :
    drop st f f = st ∧
    (f ≠ t → (drop st f t).queue =
       (st.queue.eraseIdx f).take t ++ item :: (st.queue.eraseIdx f).drop t) ∧
    (f ≠ t → st.preservePlaylist = true → ∀ c : Int,
       st.currentVideoIndex = some c →
       (drop st f t).currentVideoIndex = some (
         if (f : Int) = c then (t : Int)
         else if (f : Int) < c ∧ c ≤ (t : Int) then c - 1
         else if (t : Int) ≤ c ∧ c < (f : Int) then c + 1
         else c)) := by
  refine ⟨by unfold drop; rw [if_pos rfl], ?_, ?_⟩
  · intro hne
    unfold drop
    rw [if_neg hne, hf]
    rfl
  · intro hne hpp c hc
    unfold drop
    rw [if_neg hne, hf]
    dsimp only
    rw [if_pos hpp, hc]
    dsimp only
    split
    · rfl
    · split
      · rfl
      · split
        · rename_i h1 h2 h3
          rw [if_pos ⟨h3.2, h3.1⟩]
        · rename_i h1 h2 h3
          rw [if_neg fun hx => h3 ⟨hx.2, hx.1⟩]

/-- Concrete instantiation of `drop_reorder`: the claim's example — queue
`[A,B,C,D]` with `currentVideoIndex = 2` in Preserve mode; moving index 0
to index 3 yields queue `[B,C,D,A]` and `currentVideoIndex = 1`. -/
theorem drop_reorder_witness :
    (drop exReorderState 0 3).queue = [exItemB, exItemC, exItemD, exItemA] ∧
    (drop exReorderState 0 3).currentVideoIndex = some 1 := by
  have h := drop_reorder exReorderState 0 3 exItemA rfl (by decide)
  refine ⟨?_, ?_⟩
  · rw [h.2.1 (by decide)]
    decide
  · rw [h.2.2 (by decide) rfl 2 rfl]
    decide

/-- A two-item consume-mode state used to exhibit the behaviour of
`removeFromQueue` on out-of-range indices. -/
def exRemoveState : EngineState :=
  { queue := [exItemA, exItemB], currentVideo := none,
    currentVideoIndex := none, autoplay := false, preservePlaylist := false }

/-- Claim C5 counterexample: `removeFromQueue` applied to the out-of-range
index -1 does not leave the queue unchanged (JS `splice` counts negative
indices from the end and deletes the last element), contradicting the
claim that any out-of-range index fails without mutating state. -/
theorem remove_invalid_index_counterexample :
    (removeFromQueue exRemoveState (-1)).queue ≠ exRemoveState.queue ∧
    (removeFromQueue exRemoveState (-1)).queue = [exItemA] := by
  decide

/-- Claim C5 (amended): `removeFromQueue` performs no index validation and
signals no `InvalidIndex` condition.  An index at or beyond the queue
length is a silent no-op on the whole state; a negative index `i` with
`-len ≤ i < 0` deletes the element at `len + i` (JS splice semantics),
mutating the queue; `currentVideo` and `currentVideoIndex` are never
touched. -/
theorem remove_no_validation (st : EngineState) (i : Int) :
    ((st.queue.length : Int) ≤ i → removeFromQueue st i = st) ∧
    (-(st.queue.length : Int) ≤ i → i < 0 →
       (removeFromQueue st i).queue =
         st.queue.eraseIdx ((st.queue.length : Int) + i).toNat) ∧
    (removeFromQueue st i).currentVideo = st.currentVideo ∧
    (removeFromQueue st i).currentVideoIndex = st.currentVideoIndex := by
  refine ⟨?_, ?_, rfl, rfl⟩
  · intro hge
    have hi : ¬ i < 0 := by omega
    unfold removeFromQueue jsSpliceRemove1
    dsimp only
    rw [if_neg hi]
    have : st.queue.length ≤ i.toNat := by omega
    rw [List.eraseIdx_of_length_le this]
  · intro hle hlt
    unfold removeFromQueue jsSpliceRemove1
    dsimp only
    rw [if_pos hlt]
    have : max ((st.queue.length : Int) + i) 0 = (st.queue.length : Int) + i := by
      omega
    rw [this]

/-- Concrete instantiation of `remove_no_validation`: removing index 5
from the two-item state is a silent no-op, and removing index -1 deletes
the last element. -/
theorem remove_no_validation_witness :
    removeFromQueue exRemoveState 5 = exRemoveState ∧
    (removeFromQueue exRemoveState (-1)).queue =
      exRemoveState.queue.eraseIdx (((exRemoveState.queue.length : Int) + -1).toNat) :=
  ⟨(remove_no_validation exRemoveState 5).1 (by decide),
   (remove_no_validation exRemoveState (-1)).2.1 (by decide) (by decide)⟩

/-- A consume-mode state whose current video "B" occurs in the queue
`[A,B]` at index 1. -/
def exFoundState : EngineState :=
  { queue := [exItemA, exItemB], currentVideo := some exItemB,
    currentVideoIndex := none, autoplay := false, preservePlaylist := false }

/-- A consume-mode state whose current video "A" does not occur in the
queue `[B]`. -/
def exToggleState : EngineState :=
  { queue := [exItemB], currentVideo := some exItemA,
    currentVideoIndex := none, autoplay := false, preservePlaylist := false }

/-- Claim C6 counterexample: switching to Preserve mode when the current
video's id is absent from the queue stores `findIndex`'s -1, not null as
the claim states. -/
theorem setmode_notfound_counterexample :
    (togglePreservePlaylist exToggleState true).currentVideoIndex ≠ none ∧
    (togglePreservePlaylist exToggleState true).currentVideoIndex = some (-1) := by
  decide

theorem findIdx_first_aux (p : QueueItem → Bool) :
    ∀ (pre : List QueueItem) (it : QueueItem) (post : List QueueItem) (k : Nat),
      p it = true → (∀ x ∈ pre, p x = false) →
      List.findIdx? p (pre ++ it :: post) k = some (k + pre.length) := by
  intro pre
  induction pre with
  | nil =>
    intro it post k hit _
    simp [List.findIdx?_cons, hit]
  | cons a l ih =>
    intro it post k hit hpre
    have ha : p a = false := hpre a (by simp)
    rw [List.cons_append, List.findIdx?_cons, ha]
    simp only [Bool.false_eq_true, if_false]
    rw [ih it post (k + 1) hit fun x hx => hpre x (by simp [hx])]
    congr 1
    simp only [List.length_cons]
    omega

theorem findIdx_none_aux (p : QueueItem → Bool) :
    ∀ (l : List QueueItem) (k : Nat), (∀ x ∈ l, p x = false) →
      List.findIdx? p l k = none := by
  intro l
  induction l with
  | nil => intro k _; rfl
  | cons a as ih =>
    intro k h
    rw [List.findIdx?_cons, h a (by simp)]
    simp only [Bool.false_eq_true, if_false]
    exact ih (k + 1) fun x hx => h x (by simp [hx])

/-- Claim C6 (amended): switching to Preserve mode recomputes
`currentVideoIndex` by linear search for `currentVideo.videoId` in the
queue — the first matching position when found, and `findIndex`'s -1 (not
null) when the id is absent; it is null only when there is no current
video.  Switching to Consume mode sets the index to null and leaves
`queue` and `currentVideo` unchanged. -/
theorem setmode_semantics (st : EngineState) :
    (st.currentVideo = none →
       togglePreservePlaylist st true =
         { st with preservePlaylist := true, currentVideoIndex := none }) ∧
    (∀ cv pre it post, st.currentVideo = some cv →
       st.queue = pre ++ it :: post → it.videoId = cv.videoId →
       (∀ x ∈ pre, x.videoId ≠ cv.videoId) →
       togglePreservePlaylist st true =
         { st with preservePlaylist := true,
                   currentVideoIndex := some (pre.length : Int) }) ∧
    (∀ cv, st.currentVideo = some cv →
       (∀ x ∈ st.queue, x.videoId ≠ cv.videoId) →
       togglePreservePlaylist st true =
         { st with preservePlaylist := true, currentVideoIndex := some (-1) }) ∧
    togglePreservePlaylist st false =
      { st with preservePlaylist := false, currentVideoIndex := none } := by
  refine ⟨?_, ?_, ?_, ?_⟩
  · intro hcv
    unfold togglePreservePlaylist
    rw [hcv]
  · intro cv pre it post hcv hq hit hpre
    unfold togglePreservePlaylist
    rw [hcv]
    dsimp only
    unfold jsFindIndex
    rw [hq, findIdx_first_aux _ pre it post 0 (by simp [hit])
      fun x hx => by simp [hpre x hx]]
    simp
  · intro cv hcv hnone
    unfold togglePreservePlaylist
    rw [hcv]
    dsimp only
    unfold jsFindIndex
    rw [findIdx_none_aux _ st.queue 0 fun x hx => by simp [hnone x hx]]
  · unfold togglePreservePlaylist
    rcases st.currentVideo with _ | cv <;> rfl

/-- Concrete instantiation of `setmode_semantics`: with current video "B"
first found at index 1 of `[A,B]`, switching to Preserve stores index 1;
with current video "A" absent from `[B]`, it stores -1. -/
theorem setmode_semantics_witness :
    togglePreservePlaylist exFoundState true =
      { exFoundState with preservePlaylist := true,
                          currentVideoIndex := some 1 } ∧
    togglePreservePlaylist exToggleState true =
      { exToggleState with preservePlaylist := true,
                           currentVideoIndex := some (-1) } :=
  ⟨(setmode_semantics exFoundState).2.1 exItemB [exItemA] exItemB [] rfl rfl rfl
     (by decide),
   (setmode_semantics exToggleState).2.2.1 exItemA rfl (by decide)⟩

theorem any_videoId_false {q : List QueueItem} {v : String}
    (h : ∀ it ∈ q, it.videoId ≠ v) :
    (q.any fun item => item.videoId == v) = false := by
  rw [List.any_eq_false]
  intro x hx
  simp [h x hx]

/-- Claim C9: lookup-failure resilience.  For a `videoId` not already in
the queue, a failed metadata lookup still appends a placeholder item —
title `"Video {videoId}"`, channel `"Unknown"`, and a thumbnail URL built
solely from the id — and changes nothing else: the enqueue is not lost
and no error escapes (`addToQueue` is total). -/
theorem enqueue_lookup_failure (st : EngineState) (v : String)
    (u : Option String) (s : Option Nat) (now : Nat)
    (h : ∀ it ∈ st.queue, it.videoId ≠ v) :
    addToQueue st v u s .failed now =
      { st with queue := st.queue ++ [{
          videoId := v,
          title := "Video " ++ v,
          channel := "Unknown",
          thumbnail := "https://img.youtube.com/vi/" ++ v ++ "/mqdefault.jpg",
          username := u, startTime := s, addedAt := now }] } := by
  unfold addToQueue
  rw [any_videoId_false h]
  rfl

/-- Concrete instantiation of `enqueue_lookup_failure` at id "Z". -/
theorem enqueue_lookup_failure_witness :
    addToQueue exRemoveState "Z" (some "user") (some 3) .failed 9 =
      { exRemoveState with queue := exRemoveState.queue ++ [{
          videoId := "Z",
          title := "Video " ++ "Z",
          channel := "Unknown",
          thumbnail := "https://img.youtube.com/vi/" ++ "Z" ++ "/mqdefault.jpg",
          username := some "user", startTime := some 3, addedAt := 9 }] } :=
  enqueue_lookup_failure exRemoveState "Z" (some "user") (some 3) 9 (by decide)

/-- Claim C10 (implicit): the duplicate check in `addToQueue` inspects
only the queue, never `currentVideo`.  In Consume mode, when the current
video's id `v` is absent from the queue (the normal situation after the
playing item was popped from the head), enqueueing `v` appends a fresh
item for the currently playing video instead of no-opping — for either
lookup outcome. -/
theorem enqueue_ignores_currentVideo (st : EngineState) (cv : QueueItem)
    (u : Option String) (s : Option Nat) (lk : LookupResult) (now : Nat)
    (hmode : st.preservePlaylist = false)
    (hcv : st.currentVideo = some cv)
    (hnot : ∀ it ∈ st.queue, it.videoId ≠ cv.videoId) :
    ∃ it : QueueItem,
      (addToQueue st cv.videoId u s lk now).queue = st.queue ++ [it] ∧
      it.videoId = cv.videoId := by
  unfold addToQueue
  rw [any_videoId_false hnot]
  simp only [Bool.false_eq_true, if_false]
  cases lk with
  | ok title channel thumbnail =>
    dsimp only
    rw [if_neg (by rw [hcv]; simp)]
    exact ⟨_, rfl, rfl⟩
  | failed =>
    exact ⟨_, rfl, rfl⟩

/-- Concrete instantiation of `enqueue_ignores_currentVideo`: the consume
state playing "A" with queue `[B]` (id "A" absent) grows the queue on
`addToQueue "A"`. -/
theorem enqueue_ignores_currentVideo_witness :
    ∃ it : QueueItem,
      (addToQueue exToggleState exItemA.videoId none none
        (.ok "x" "y" "z") 9).queue = exToggleState.queue ++ [it] ∧
      it.videoId = exItemA.videoId :=
  enqueue_ignores_currentVideo exToggleState exItemA none none
    (.ok "x" "y" "z") 9 rfl rfl (by decide)

theorem isEmpty_false_of_ne {l : List Char} (h : l ≠ []) : l.isEmpty = false := by
  cases l with
  | nil => exact absurd rfl h
  | cons a t => rfl

theorem ne_nil_of_not_isEmpty {l : List Char} (h : ¬ l.isEmpty = true) :
    l ≠ [] := by
  intro e
  rw [e] at h
  exact h rfl

theorem takeWhile_digits_split (l ds rest : List Char) (hl : l = ds ++ rest)
    (hds : ∀ c ∈ ds, Char.isDigit c = true)
    (hrest : ∀ c cs, rest = c :: cs → Char.isDigit c = false) :
    l.takeWhile Char.isDigit = ds ∧ l.dropWhile Char.isDigit = rest := by
  subst hl
  induction ds with
  | nil =>
    cases rest with
    | nil => exact ⟨rfl, rfl⟩
    | cons c cs =>
      have hc := hrest c cs rfl
      rw [List.nil_append]
      constructor
      · rw [List.takeWhile_cons, hc]
        simp
      · rw [List.dropWhile_cons, hc]
        simp
  | cons d ds ih =>
    have hd := hds d (by simp)
    obtain ⟨h1, h2⟩ := ih fun c hc => hds c (by simp [hc])
    constructor
    · rw [List.cons_append, List.takeWhile_cons, hd]
      simp only [if_true]
      rw [h1]
    · rw [List.cons_append, List.dropWhile_cons, hd]
      simp only [if_true]
      exact h2

theorem parseT_digits (ds : List Char) (hne : ds ≠ [])
    (hds : ∀ c ∈ ds, Char.isDigit c = true) :
    parseT ds = some (digitsVal ds) := by
  have h := takeWhile_digits_split ds ds [] (List.append_nil ds).symm hds
    fun c cs hc => by cases hc
  unfold parseT
  rw [h.1, h.2, isEmpty_false_of_ne hne]
  rfl

theorem parseT_min_sec (ms ss : List Char) (hm : ms ≠ []) (hs : ss ≠ [])
    (hms : ∀ c ∈ ms, Char.isDigit c = true)
    (hss : ∀ c ∈ ss, Char.isDigit c = true) :
    parseT (ms ++ 'm' :: ss) = some (digitsVal ms * 60 + digitsVal ss) := by
  have h1 := takeWhile_digits_split (ms ++ 'm' :: ss) ms ('m' :: ss) rfl hms
    fun c cs hc => by cases hc; decide
  have h2 := takeWhile_digits_split ss ss [] (List.append_nil ss).symm hss
    fun c cs hc => by cases hc
  unfold parseT
  rw [h1.1, h1.2, isEmpty_false_of_ne hm]
  dsimp only
  rw [if_pos rfl, h2.1, h2.2, isEmpty_false_of_ne hs]
  rfl

theorem parseT_min_sec_s (ms ss : List Char) (hm : ms ≠ []) (hs : ss ≠ [])
    (hms : ∀ c ∈ ms, Char.isDigit c = true)
    (hss : ∀ c ∈ ss, Char.isDigit c = true) :
    parseT (ms ++ 'm' :: ss ++ ['s']) =
      some (digitsVal ms * 60 + digitsVal ss) := by
  have h1 := takeWhile_digits_split (ms ++ 'm' :: ss ++ ['s']) ms
    ('m' :: (ss ++ ['s'])) (by simp) hms fun c cs hc => by cases hc; decide
  have h2 := takeWhile_digits_split (ss ++ ['s']) ss ['s'] rfl hss
    fun c cs hc => by cases hc; decide
  unfold parseT
  rw [h1.1, h1.2, isEmpty_false_of_ne hm]
  dsimp only
  rw [if_pos rfl, h2.1, h2.2, isEmpty_false_of_ne hs]
  dsimp only
  rw [if_pos (show 's' = 's' ∧ ([] : List Char) = [] from ⟨rfl, rfl⟩)]
  rfl

theorem parseT_min (ms : List Char) (hm : ms ≠ [])
    (hms : ∀ c ∈ ms, Char.isDigit c = true) :
    parseT (ms ++ ['m']) = some (digitsVal ms * 60) := by
  have h1 := takeWhile_digits_split (ms ++ ['m']) ms ['m'] rfl hms
    fun c cs hc => by cases hc; decide
  unfold parseT
  rw [h1.1, h1.2, isEmpty_false_of_ne hm]
  dsimp only
  rw [if_pos rfl]
  rfl

theorem parseT_sec (ss : List Char) (hs : ss ≠ [])
    (hss : ∀ c ∈ ss, Char.isDigit c = true) :
    parseT (ss ++ ['s']) = some (digitsVal ss) := by
  have h1 := takeWhile_digits_split (ss ++ ['s']) ss ['s'] rfl hss
    fun c cs hc => by cases hc; decide
  unfold parseT
  rw [h1.1, h1.2, isEmpty_false_of_ne hs]
  dsimp only
  rw [if_neg (show ¬ 's' = 'm' by decide),
    if_pos (show 's' = 's' ∧ ([] : List Char) = [] from ⟨rfl, rfl⟩)]
  rfl

/-- The four shapes of the spec's start-offset grammar: pure digits,
digits-m-digits with optional trailing s, digits-m, digits-s. -/
def TShape (l : List Char) : Prop :=
  (l ≠ [] ∧ ∀ c ∈ l, Char.isDigit c = true) ∨
  (∃ ms ss : List Char, ms ≠ [] ∧ ss ≠ [] ∧
     (∀ c ∈ ms, Char.isDigit c = true) ∧ (∀ c ∈ ss, Char.isDigit c = true) ∧
     (l = ms ++ 'm' :: ss ∨ l = ms ++ 'm' :: ss ++ ['s'])) ∨
  (∃ ms : List Char, ms ≠ [] ∧ (∀ c ∈ ms, Char.isDigit c = true) ∧
     l = ms ++ ['m']) ∨
  (∃ ss : List Char, ss ≠ [] ∧ (∀ c ∈ ss, Char.isDigit c = true) ∧
     l = ss ++ ['s'])

theorem parseT_shape (l : List Char) (n : Nat) (h : parseT l = some n) :
    TShape l := by
  have hl := List.takeWhile_append_dropWhile Char.isDigit l
  have hdig : ∀ c ∈ l.takeWhile Char.isDigit, Char.isDigit c = true :=
    fun c hc => List.mem_takeWhile_imp hc
  unfold parseT at h
  split at h
  · exact absurd h (by simp)
  · rename_i hne1
    have htw : l.takeWhile Char.isDigit ≠ [] := ne_nil_of_not_isEmpty hne1
    split at h
    · rename_i heq
      rw [heq, List.append_nil] at hl
      exact Or.inl ⟨by rw [← hl]; exact htw, by rw [← hl]; exact hdig⟩
    · rename_i c r2 heq
      rw [heq] at hl
      split at h
      · rename_i hc
        subst hc
        have hdig2 : ∀ x ∈ r2.takeWhile Char.isDigit, Char.isDigit x = true :=
          fun x hx => List.mem_takeWhile_imp hx
        have hr2 := List.takeWhile_append_dropWhile Char.isDigit r2
        split at h
        · split at h
          · exact Or.inr (Or.inr (Or.inl ⟨l.takeWhile Char.isDigit, htw, hdig,
              hl.symm⟩))
          · exact absurd h (by simp)
        · rename_i hne2
          have htw2 : r2.takeWhile Char.isDigit ≠ [] := ne_nil_of_not_isEmpty hne2
          split at h
          · rename_i heq2
            rw [heq2, List.append_nil] at hr2
            refine Or.inr (Or.inl ⟨l.takeWhile Char.isDigit,
              r2.takeWhile Char.isDigit, htw, htw2, hdig, hdig2, Or.inl ?_⟩)
            rw [hr2]
            exact hl.symm
          · rename_i c2 r3 heq2
            split at h
            · rename_i hsr
              obtain ⟨hc2, hr3⟩ := hsr
              subst hc2
              subst hr3
              rw [heq2] at hr2
              refine Or.inr (Or.inl ⟨l.takeWhile Char.isDigit,
                r2.takeWhile Char.isDigit, htw, htw2, hdig, hdig2, Or.inr ?_⟩)
              rw [List.append_assoc, List.cons_append, hr2]
              exact hl.symm
            · exact absurd h (by simp)
      · split at h
        · rename_i hsr
          obtain ⟨hc, hr2⟩ := hsr
          subst hc
          subst hr2
          exact Or.inr (Or.inr (Or.inr ⟨l.takeWhile Char.isDigit, htw, hdig,
            hl.symm⟩))
        · exact absurd h (by simp)

/-- The claim C8 example link carrying `t=2m5s`. -/
def exUrlMinSec : String := "https://www.youtube.com/watch?v=abcdefghijk&t=2m5s"

/-- The claim C8 example link carrying `t=90`. -/
def exUrlSeconds : String := "https://www.youtube.com/watch?v=abcdefghijk&t=90"

/-- The claim C8 example short link with no `t` parameter. -/
def exUrlShort : String := "https://youtu.be/abcdefghijk"

/-- Claim C8: start-offset grammar.  The `t` parameter parses as: pure
digits as seconds; digits `m` digits with optional trailing `s` as
minutes*60+seconds; digits `m` as minutes*60; digits `s` as seconds; and
a value matching none of those shapes yields no start offset (every
accepted input has one of the four shapes, and `parseT` is total, so a
bad format is never an error).  On the claim's example links, `t=2m5s`
yields 125, `t=90` yields 90, the short link without `t` yields null, and
the 11-character identifier is extracted unchanged in each case. -/
theorem timestamp_grammar :
    (∀ ds : List Char, ds ≠ [] → (∀ c ∈ ds, Char.isDigit c = true) →
       parseT ds = some (digitsVal ds)) ∧
    (∀ ms ss : List Char, ms ≠ [] → ss ≠ [] →
       (∀ c ∈ ms, Char.isDigit c = true) → (∀ c ∈ ss, Char.isDigit c = true) →
       parseT (ms ++ 'm' :: ss) = some (digitsVal ms * 60 + digitsVal ss) ∧
       parseT (ms ++ 'm' :: ss ++ ['s']) =
         some (digitsVal ms * 60 + digitsVal ss)) ∧
    (∀ ms : List Char, ms ≠ [] → (∀ c ∈ ms, Char.isDigit c = true) →
       parseT (ms ++ ['m']) = some (digitsVal ms * 60)) ∧
    (∀ ss : List Char, ss ≠ [] → (∀ c ∈ ss, Char.isDigit c = true) →
       parseT (ss ++ ['s']) = some (digitsVal ss)) ∧
    (∀ (l : List Char) (n : Nat), parseT l = some n → TShape l) ∧
    (extractVideoId exUrlMinSec = some "abcdefghijk" ∧
       extractStartTime exUrlMinSec = some 125) ∧
    (extractVideoId exUrlSeconds = some "abcdefghijk" ∧
       extractStartTime exUrlSeconds = some 90) ∧
    (extractVideoId exUrlShort = some "abcdefghijk" ∧
       extractStartTime exUrlShort = none) :=
  ⟨parseT_digits,
   fun ms ss hm hs hms hss =>
     ⟨parseT_min_sec ms ss hm hs hms hss, parseT_min_sec_s ms ss hm hs hms hss⟩,
   parseT_min,
   parseT_sec,
   parseT_shape,
   ⟨by decide, by decide⟩,
   ⟨by decide, by decide⟩,
   ⟨by decide, by decide⟩⟩

/-- Concrete instantiation of the hypothesis-bearing parts of
`timestamp_grammar`: the grammar rules evaluated at "90", "2m5s", "2m",
"5s", and the shape of the accepted input "2m". -/
theorem timestamp_grammar_witness :
    parseT ['9', '0'] = some (digitsVal ['9', '0']) ∧
    parseT ['2', 'm', '5', 's'] = some (digitsVal ['2'] * 60 + digitsVal ['5']) ∧
    parseT ['2', 'm'] = some (digitsVal ['2'] * 60) ∧
    parseT ['5', 's'] = some (digitsVal ['5']) ∧
    TShape ['2', 'm'] :=
  ⟨timestamp_grammar.1 ['9', '0'] (by decide) (by decide),
   (timestamp_grammar.2.1 ['2'] ['5'] (by decide) (by decide) (by decide)
     (by decide)).2,
   timestamp_grammar.2.2.1 ['2'] (by decide) (by decide),
   timestamp_grammar.2.2.2.1 ['5'] (by decide) (by decide),
   timestamp_grammar.2.2.2.2.1 ['2', 'm'] 120 (by decide)⟩

end YoutubePlayer
